import Mathlib

/-!
Verification development for the build-deploy-notify pipeline in `app.py`.

The Python source is shallowly embedded: pure helpers become Lean functions,
library calls (HTTP, base64, the LLM backend, the filesystem) become explicit
oracle parameters, and exceptions become `Except`/`Option` results.  Machine
side effects (files written, shell commands issued, HTTP events) are recorded
as explicit data so that ordering and frame properties can be stated.
-/

/- ========================================================================
   JSON values as delivered by Flask `request.get_json` (front door model).
   ======================================================================== -/

/-- A parsed JSON value, as `request.get_json(force=True, silent=True)` would
produce: `none` at the call site models a body that fails to parse. -/
inductive JVal where
  | jNull : JVal
  | jBool : Bool → JVal
  | jNum : Int → JVal
  | jStr : String → JVal
  | jArr : List JVal → JVal
  | jObj : List (String × JVal) → JVal

/-- Python truthiness of a JSON value, used by the source line
`if not data: return ... 400`. -/
def truthy : JVal → Bool
  | .jNull => false
  | .jBool b => b
  | .jNum n => if n = 0 then false else true
  | .jStr s => if s = "" then false else true
  | .jArr xs => !xs.isEmpty
  | .jObj fs => !fs.isEmpty

/-- Dictionary lookup, modelling `data.get(key)` (keys of a parsed JSON dict
are unique). -/
def objGet : List (String × JVal) → String → Option JVal
  | [], _ => none
  | (k, v) :: rest, key => if k = key then some v else objGet rest key

/-- Test `v == some (jStr s)`; models the Python comparison
`data.get('secret') != MY_SECRET` (negated): a missing key or a non-string
value never equals the configured string secret. -/
def isStrVal (v : Option JVal) (s : String) : Bool :=
  match v with
  | some (.jStr t) => if t = s then true else false
  | _ => false

/- ========================================================================
   Front door: `handle_build_request` (app.py lines 37-57).
   ======================================================================== -/

/-- Observable front-door events, in the order they happen inside the
request handler. -/
inductive FrontEvent where
  | pipelineStart : FrontEvent
  | pipelineEnd : Bool → FrontEvent
  | respond : Nat → FrontEvent
deriving DecidableEq

structure FrontResult where
  events : List FrontEvent
  status : Nat
deriving DecidableEq

/-- The required-field list from the source:
`for fld in ("email", "task", "round", "nonce", "brief", "evaluation_url")`. -/
def REQUIRED_FIELDS : List String :=
  [ "email", "task", "round", "nonce", "brief", "evaluation_url" ]

/-- Shallow embedding of `handle_build_request`.  `body` is the result of
`request.get_json(force=True, silent=True)` (`none` = unparsable body),
`pipelineOk` records whether the synchronous `process_task` call raises.
The handler catches any `process_task` exception and still answers 200.
A truthy non-object body makes `data.get` raise `AttributeError`, which the
handler does not catch (Flask then produces a 500); that path is recorded
with status 500 and no response event from the handler itself. -/
def handle_build_request (mySecret : String) (body : Option JVal)
    (pipelineOk : Bool) : FrontResult :=
  match body with
  | none => ⟨[ .respond 400 ], 400⟩
  | some data =>
    if truthy data = false then ⟨[ .respond 400 ], 400⟩
    else
      match data with
      | .jObj fields =>
        if isStrVal (objGet fields "secret") mySecret = false then
          ⟨[ .respond 401 ], 401⟩
        else if REQUIRED_FIELDS.all (fun f => (objGet fields f).isSome) then
          ⟨[ .pipelineStart, .pipelineEnd pipelineOk, .respond 200 ], 200⟩
        else ⟨[ .respond 400 ], 400⟩
      | _ => ⟨[], 500⟩

/-- Index of the first occurrence of an event in a trace. -/
def idxOfEvent (e : FrontEvent) (l : List FrontEvent) : Nat :=
  l.findIdx (fun x => x == e)

/- ========================================================================
   Structured-output extractor: `extract_json_from_text` (lines 224-256).
   ======================================================================== -/

/-- The optional `(?:json|js|html)?` group of the fence-removal regex
`re.sub(r"```(?:json|js|html)?\n?", "", text)`: alternatives tried in order. -/
def dropAlt (cs : List Char) : List Char :=
  if "json".data.isPrefixOf cs then cs.drop 4
  else if "js".data.isPrefixOf cs then cs.drop 2
  else if "html".data.isPrefixOf cs then cs.drop 4
  else cs

/-- The optional `\n?` of the same regex. -/
def dropNl : List Char → List Char
  | '\n' :: rest => rest
  | cs => cs

/-- First substitution pass: remove every occurrence of
three backticks, an optional language tag, and an optional newline,
scanning left to right (fuel = input length suffices, each step consumes at
least one character). -/
def stripFence1 : Nat → List Char → List Char
  | 0, cs => cs
  | _ + 1, [] => []
  | fuel + 1, c :: rest =>
    if c = '`' then
      match rest with
      | '`' :: '`' :: rest2 => stripFence1 fuel (dropNl (dropAlt rest2))
      | _ => c :: stripFence1 fuel rest
    else c :: stripFence1 fuel rest

/-- Second substitution pass: `re.sub(r"```", "", text)`. -/
def stripFence2 : Nat → List Char → List Char
  | 0, cs => cs
  | _ + 1, [] => []
  | fuel + 1, c :: rest =>
    if c = '`' then
      match rest with
      | '`' :: '`' :: rest2 => stripFence2 fuel rest2
      | _ => c :: stripFence2 fuel rest
    else c :: stripFence2 fuel rest

/- A validity checker for `json.loads` (the strict CPython decoder, which
additionally accepts the constants NaN, Infinity and -Infinity).  Parsers
return the unconsumed remainder on success. -/

/-- JSON whitespace accepted by `json.loads`. -/
def jsonWs (c : Char) : Bool :=
  c = ' ' || c = '\t' || c = '\n' || c = '\r'

def skipWs (cs : List Char) : List Char := cs.dropWhile jsonWs

def isHexCh (c : Char) : Bool :=
  c.isDigit || ('a' ≤ c && c ≤ 'f') || ('A' ≤ c && c ≤ 'F')

/-- JSON string body (after the opening quote).  Strict mode: raw control
characters are rejected; escapes are the eight simple ones plus `\uXXXX`. -/
def jStr : List Char → Option (List Char)
  | [] => none
  | c :: rest =>
    if c = '"' then some rest
    else if c = '\\' then
      match rest with
      | [] => none
      | e :: rest2 =>
        if e = 'u' then
          match rest2 with
          | a :: b :: c3 :: d :: rest3 =>
            if isHexCh a && isHexCh b && isHexCh c3 && isHexCh d then
              jStr rest3
            else none
          | _ => none
        else if e = '"' || e = '\\' || e = '/' || e = 'b' || e = 'f' ||
            e = 'n' || e = 'r' || e = 't' then jStr rest2
        else none
    else if c.toNat < 32 then none
    else jStr rest

/-- One or more decimal digits. -/
def digits1 : List Char → Option (List Char)
  | [] => none
  | c :: rest => if c.isDigit then some (rest.dropWhile Char.isDigit) else none

/-- Integer part of a JSON number: `0` or a nonzero digit followed by digits. -/
def jNumInt : List Char → Option (List Char)
  | [] => none
  | '0' :: rest => some rest
  | c :: rest => if c.isDigit then some (rest.dropWhile Char.isDigit) else none

/-- Optional fraction part `(\.\d+)?`. -/
def jFracPart : List Char → Option (List Char)
  | '.' :: rest => digits1 rest
  | cs => some cs

/-- Optional exponent part `([eE][-+]?\d+)?`. -/
def jExpPart : List Char → Option (List Char)
  | [] => some []
  | e :: rest =>
    if e = 'e' || e = 'E' then
      match rest with
      | [] => none
      | s :: rest2 =>
        if s = '+' || s = '-' then digits1 rest2 else digits1 (s :: rest2)
    else some (e :: rest)

def jNumTail (cs : List Char) : Option (List Char) :=
  match jNumInt cs with
  | none => none
  | some r1 =>
    match jFracPart r1 with
    | none => none
    | some r2 => jExpPart r2

/-- A JSON number with optional leading minus. -/
def jNum : List Char → Option (List Char)
  | '-' :: rest => jNumTail rest
  | cs => jNumTail cs

/-- Parser mode: a value, the members of an object after `{`, or the items
of an array after `[` (`Bool` = whether no member has been read yet). -/
inductive JMode where
  | val : JMode
  | objTail : Bool → JMode
  | arrTail : Bool → JMode

/-- Fuel-indexed recursive-descent recognizer for `json.loads` input.
Each call consumes one unit of fuel; `2 * length + 2` fuel is always enough
because at most two nested calls happen per consumed character. -/
def jRun : Nat → JMode → List Char → Option (List Char)
  | 0, _, _ => none
  | fuel + 1, .val, cs0 =>
    match skipWs cs0 with
    | [] => none
    | '{' :: rest => jRun fuel (.objTail true) rest
    | '[' :: rest => jRun fuel (.arrTail true) rest
    | '"' :: rest => jStr rest
    | cs =>
      if "true".data.isPrefixOf cs then some (cs.drop 4)
      else if "false".data.isPrefixOf cs then some (cs.drop 5)
      else if "null".data.isPrefixOf cs then some (cs.drop 4)
      else if "NaN".data.isPrefixOf cs then some (cs.drop 3)
      else if "Infinity".data.isPrefixOf cs then some (cs.drop 8)
      else if "-Infinity".data.isPrefixOf cs then some (cs.drop 9)
      else jNum cs
  | fuel + 1, .objTail first, cs0 =>
    match skipWs cs0 with
    | '}' :: rest => if first then some rest else none
    | '"' :: rest =>
      match jStr rest with
      | none => none
      | some r1 =>
        match skipWs r1 with
        | ':' :: r2 =>
          match jRun fuel .val r2 with
          | none => none
          | some r3 =>
            match skipWs r3 with
            | ',' :: r4 => jRun fuel (.objTail false) r4
            | '}' :: r4 => some r4
            | _ => none
        | _ => none
    | _ => none
  | fuel + 1, .arrTail first, cs0 =>
    match skipWs cs0 with
    | ']' :: rest => if first then some rest else none
    | cs =>
      match jRun fuel .val cs with
      | none => none
      | some r1 =>
        match skipWs r1 with
        | ',' :: r2 => jRun fuel (.arrTail false) r2
        | ']' :: r2 => some r2
        | _ => none

/-- Whether `json.loads` accepts the whole string. -/
def jsonValid (cs : List Char) : Bool :=
  match jRun (2 * cs.length + 2) .val cs with
  | some rest => (skipWs rest).isEmpty
  | none => false

/-- The inner loop of the extractor: starting at an opening brace, walk
forward counting `{`/`}` nesting (ignoring string context, exactly as the
source does) and return the candidate substring ending where the counter
first returns to zero. -/
def candWalk : List Char → Int → List Char → Option (List Char)
  | [], _, _ => none
  | c :: rest, d, acc =>
    let d1 : Int := if c = '{' then d + 1 else if c = '}' then d - 1 else d
    if c = '}' ∧ d1 = 0 then some (acc ++ [c])
    else candWalk rest d1 (acc ++ [c])

/-- The outer loop of the extractor: try every opening-brace position in
order; at each, take the depth-balanced candidate and accept it iff
`json.loads` succeeds, otherwise move to the next opening brace. -/
def scanStarts : List Char → Option (List Char)
  | [] => none
  | c :: rest =>
    if c = '{' then
      match candWalk (c :: rest) 0 [] with
      | some cand => if jsonValid cand then some cand else scanStarts rest
      | none => scanStarts rest
    else scanStarts rest

/-- Python `str.strip()` whitespace set. -/
def pySpace (c : Char) : Bool :=
  c = ' ' || c = '\t' || c = '\n' || c = '\r' || c = '\x0b' || c = '\x0c'

def pyStrip (cs : List Char) : List Char :=
  ((cs.dropWhile pySpace).reverse.dropWhile pySpace).reverse

/-- Index of the last `}` or `]`, like `max(text.rfind(c) for ...)`. -/
def lastBraceIdx (cs : List Char) : Option Nat :=
  match cs.reverse.findIdx? (fun c => c = '}' || c = ']') with
  | none => none
  | some r => some (cs.length - 1 - r)

/-- The `allow_loose` fallback: slice from the first `{` or `[` to the last
`}` or `]` and try a single parse; any failure yields `none`. -/
def looseExtract (cs : List Char) : Option (List Char) :=
  let cleaned := pyStrip cs
  match cleaned.findIdx? (fun c => c = '{' || c = '[') with
  | none => none
  | some first =>
    let lastI : Int :=
      match lastBraceIdx cleaned with
      | none => -1
      | some i => (i : Int)
    let cand := (cleaned.drop first).take (lastI + 1 - (first : Int)).toNat
    if jsonValid cand then some cand else none

/-- Shallow embedding of `extract_json_from_text(text, allow_loose)`. -/
def extract_json_from_text (text : String) (allowLoose : Bool) :
    Option String :=
  if text.data.isEmpty then none
  else
    let cs1 := stripFence1 text.data.length text.data
    let cs2 := stripFence2 cs1.length cs1
    match scanStarts cs2 with
    | some cand => some (String.mk cand)
    | none =>
      if allowLoose then (looseExtract cs2).map String.mk
      else none

/- ========================================================================
   Evaluator notifier: `notify_evaluator` (lines 282-308).
   ======================================================================== -/

/-- What a run of the notifier did: number of POST attempts, the sequence of
`time.sleep` delays in order, and whether it returned successfully (`false`
means it raised after the retry budget). -/
structure NotifyTrace where
  attempts : Nat
  sleeps : List Nat
  success : Bool
deriving DecidableEq

/-- The retry loop `for attempt in range(1, 6)`.  `f attempt` is the oracle
for the POST: `some code` = HTTP response with that status, `none` = a
requests exception.  On anything other than 200 the code sleeps `delay`
and doubles it, including after the final attempt. -/
def notifyLoop (f : Nat → Option Nat) :
    Nat → Nat → Nat → List Nat → Nat → NotifyTrace
  | 0, _, _, sleeps, count => ⟨count, sleeps, false⟩
  | fuel + 1, attempt, delay, sleeps, count =>
    if f attempt = some 200 then ⟨count + 1, sleeps, true⟩
    else notifyLoop f fuel (attempt + 1) (delay * 2) (sleeps ++ [delay])
      (count + 1)

/-- Shallow embedding of `notify_evaluator` (the payload itself does not
influence control flow, only the response oracle does). -/
def notify_evaluator (f : Nat → Option Nat) : NotifyTrace :=
  notifyLoop f 5 1 1 [] 0

/- ========================================================================
   Code generator client: `generate_code_with_llm` (lines 166-221).
   ======================================================================== -/

/-- One entry of the generated file list: a Python dict with optional
`name` and `content` keys (`fi.get("name")`, `fi.get("content", "")`). -/
structure GenFile where
  name : Option String
  content : Option String
deriving DecidableEq

/-- The fixed fallback file set returned when no LLM client is configured
(lines 168-174). -/
def stubFiles (brief : String) : List GenFile :=
  [ ⟨some "index.html",
      some ("<!doctype html><html><body><h1>" ++ brief ++
        "</h1></body></html>")⟩,
    ⟨some "README.md", some ("# " ++ brief ++ "\n\nAuto-generated stub.")⟩,
    ⟨some "LICENSE", some "MIT License (placeholder)"⟩ ]

/-- Shallow embedding of `generate_code_with_llm`.  When `clientPresent` is
false, the fixed stub is returned.  Otherwise the whole backend interaction
(prompt construction, chat call, extraction, `json.loads`, `.get("files")`)
is summarized by the oracle `llmBranch`, whose `none` models the
`except: return None` of lines 219-221. -/
def generate_code_with_llm (clientPresent : Bool)
    (llmBranch : Option (List GenFile)) (brief : String) :
    Option (List GenFile) :=
  if clientPresent = false then some (stubFiles brief)
  else llmBranch

/- ========================================================================
   Attachment materializer (lines 70-94).
   ======================================================================== -/

/-- An attachment dict: `att.get("name")`, `att.get("url")`. -/
structure Attachment where
  name : Option String
  url : Option String
deriving DecidableEq

/-- What happened for one attachment. -/
inductive AttEvent where
  | wrote : String → AttEvent
  | warnedFetch : String → AttEvent
deriving DecidableEq

/-- Python `url.split(",", 1)` restricted to what the source needs: the
part after the first comma, or `none` when there is no comma (in which case
the tuple unpacking `_, b64 = ...` raises ValueError). -/
def afterFirstComma : List Char → Option (List Char)
  | [] => none
  | ',' :: rest => some rest
  | _ :: rest => afterFirstComma rest

/-- Materialize a single attachment.  The data-URL branch (lines 81-85) is
not guarded by try/except: a missing comma or a base64 error is an
uncaught exception (`Except.error`).  The HTTP branch (lines 86-94) is
guarded: a fetch failure only logs a warning. -/
def materializeAtt (b64dec : String → Option (List Nat))
    (fetch : String → Option (List Nat)) (att : Attachment) :
    Except String (Option AttEvent) :=
  match att.name, att.url with
  | some n, some u =>
    if n = "" || u = "" then .ok none
    else if "data:".data.isPrefixOf u.data then
      match afterFirstComma u.data with
      | none => .error "ValueError: not enough values to unpack"
      | some b64 =>
        match b64dec (String.mk b64) with
        | none => .error "binascii.Error: invalid base64"
        | some _ => .ok (some (.wrote n))
    else
      match fetch u with
      | some _ => .ok (some (.wrote n))
      | none => .ok (some (.warnedFetch n))
  | _, _ => .ok none

/-- The loop over `attachments`; the first uncaught exception aborts. -/
def materializeAll (b64dec : String → Option (List Nat))
    (fetch : String → Option (List Nat)) :
    List Attachment → Except String (List AttEvent)
  | [] => .ok []
  | att :: rest =>
    match materializeAtt b64dec fetch att with
    | .error e => .error e
    | .ok none => materializeAll b64dec fetch rest
    | .ok (some ev) =>
      match materializeAll b64dec fetch rest with
      | .error e => .error e
      | .ok evs => .ok (ev :: evs)

/-- An attachment that cannot enter the unguarded data-URL branch: it is
skipped outright (missing or empty name/url) or goes through the guarded
HTTP fetch. -/
def attSafe (att : Attachment) : Bool :=
  match att.name, att.url with
  | some n, some u =>
    if n = "" || u = "" then true
    else !("data:".data.isPrefixOf u.data)
  | _, _ => true

/- ========================================================================
   Repository materialization (lines 101-126).
   ======================================================================== -/

/-- Write (or overwrite) one file in the working tree, modelling
`open(target, "w")`. -/
def fsWrite (fs : List (String × String)) (name content : String) :
    List (String × String) :=
  match fs with
  | [] => [ (name, content) ]
  | (n, c) :: rest =>
    if n = name then (n, content) :: rest
    else (n, c) :: fsWrite rest name content

def fsLookup : List (String × String) → String → Option String
  | [], _ => none
  | (n, c) :: rest, name => if n = name then some c else fsLookup rest name

/-- The write loop of lines 107-113.  A missing `name` key makes
`os.path.join(repo_path, None)` raise TypeError; a missing `content`
defaults to the empty string. -/
def writeFiles : List GenFile → List (String × String) →
    Except String (List (String × String))
  | [], fs => .ok fs
  | fi :: rest, fs =>
    match fi.name with
    | none => .error "TypeError: join expects str, not NoneType"
    | some n => writeFiles rest (fsWrite fs n (fi.content.getD ""))

/-- The synthesized MIT license text of lines 118-124. -/
def mitLicense (year : Nat) (user : String) : String :=
  "MIT License\n\nCopyright (c) " ++ toString year ++ " " ++ user ++
    "\n\nPermission is hereby granted...\n"

/-- Lines 115-126: write a LICENSE only when none exists. -/
def ensureLicense (fs : List (String × String)) (year : Nat)
    (user : String) : List (String × String) :=
  match fsLookup fs "LICENSE" with
  | some _ => fs
  | none => fsWrite fs "LICENSE" (mitLicense year user)

/- ========================================================================
   Repository addressing and shell commands (lines 65-66, 128-148).
   ======================================================================== -/

/-- The hosted-repository name is a hardcoded constant (line 65,
`repo_name = "tds-proj1"  # fixed to your project`). -/
def repo_name : String := "tds-proj1"

/-- `os.path.join("/tmp", repo_name)`. -/
def repo_path : String := "/tmp/" ++ repo_name

def remoteUrl (user token : String) : String :=
  "https://" ++ user ++ ":" ++ token ++ "@github.com/" ++ user ++ "/" ++
    repo_name ++ ".git"

def repoUrlOf (user : String) : String :=
  "https://github.com/" ++ user ++ "/" ++ repo_name

def pagesUrlOf (user : String) : String :=
  "https://" ++ user ++ ".github.io/" ++ repo_name ++ "/"

/-- Everything about where a task is hosted, as `process_task` computes it
from an incoming request: the function ignores every request field, because
the source fixes `repo_name` (task id plays no role in addressing). -/
def taskAddressing (user token : String) (_task : String) :
    String × String × String × String :=
  (repo_path, remoteUrl user token, repoUrlOf user, pagesUrlOf user)

/-- The sequence of shell commands lines 129-146 issue, in order.
`remoteAddFails` selects the `except` branch that falls back to
`git remote set-url`.  The push of line 141 carries `--force`
unconditionally, with no round check anywhere. -/
def gitCommands (round_num : Nat) (user token : String)
    (remoteAddFails : Bool) : List (List String) :=
  [ [ "git", "init" ],
    [ "git", "checkout", "-b", "main" ],
    [ "git", "add", "." ],
    [ "git", "commit", "-m", "Round " ++ toString round_num ++ " commit" ] ]
  ++ (if remoteAddFails then
      [ [ "git", "remote", "add", "origin", remoteUrl user token ],
        [ "git", "remote", "set-url", "origin", remoteUrl user token ] ]
    else [ [ "git", "remote", "add", "origin", remoteUrl user token ] ])
  ++ [ [ "git", "push", "-u", "origin", "main", "--force" ] ]
  ++ [ [ "gh", "pages", "publish", "--branch", "main",
        "--repo=" ++ user ++ "/" ++ repo_name ] ]

/- ========================================================================
   The pipeline: `process_task` (lines 60-163).
   ======================================================================== -/

/-- Lines 101-126 as one step: `shutil.rmtree` deletes whatever working
tree an earlier round left behind (so `_existingRepo` is never consulted),
`os.makedirs` recreates it empty, the generated files are written, and a
LICENSE is synthesized when absent. -/
def buildWorkingTree (_existingRepo : List (String × String))
    (g : List GenFile) (year : Nat) (user : String) :
    Except String (List (String × String)) :=
  match writeFiles g [] with
  | .error e => .error e
  | .ok fs0 => .ok (ensureLicense fs0 year user)

/-- The request data `process_task` consumes. -/
structure BuildData where
  email : String
  task : String
  round : Nat
  nonce : String
  brief : String
  evaluation_url : String
  attachments : List Attachment

/-- Environment configuration consumed by the pipeline. -/
structure PTConfig where
  user : String
  token : String
  year : Nat

/-- Oracles for every external interaction of one round. -/
structure PTOracles where
  b64dec : String → Option (List Nat)
  fetch : String → Option (List Nat)
  clientPresent : Bool
  llmBranch : Option (List GenFile)
  remoteAddFails : Bool
  notifyResp : Nat → Option Nat

/-- The observable outcome of a successful round. -/
structure PTResult where
  attEvents : List AttEvent
  repoFiles : List (String × String)
  commands : List (List String)
  localPath : String
  remote : String
  repoUrl : String
  pagesUrl : String
  notify : NotifyTrace

/-- Shallow embedding of `process_task`.  `existingRepo` is whatever the
previous round left at the fixed working path; lines 102-104
(`shutil.rmtree` + `os.makedirs`) delete it unconditionally before the new
file set is written, so the parameter is never consulted.  Generation runs
before the wipe (line 97 precedes line 102).  The readiness poll only logs,
so it does not appear in the result; a notification failure after the retry
budget propagates as an error (line 308). -/
def process_task (cfg : PTConfig) (ora : PTOracles)
    (existingRepo : List (String × String)) (data : BuildData) :
    Except String PTResult :=
  match materializeAll ora.b64dec ora.fetch data.attachments with
  | .error e => .error e
  | .ok evs =>
    match generate_code_with_llm ora.clientPresent ora.llmBranch data.brief
      with
    | none => .error "Failed to generate code from LLM"
    | some [] => .error "Failed to generate code from LLM"
    | some (g0 :: gs) =>
      match buildWorkingTree existingRepo (g0 :: gs) cfg.year cfg.user with
      | .error e => .error e
      | .ok fs =>
        if (notify_evaluator ora.notifyResp).success then
          .ok ⟨evs, fs, gitCommands data.round cfg.user cfg.token
              ora.remoteAddFails,
            repo_path, remoteUrl cfg.user cfg.token, repoUrlOf cfg.user,
            pagesUrlOf cfg.user, notify_evaluator ora.notifyResp⟩
        else .error "Failed notifying evaluator after retries."

/- ========================================================================
   Helper notions and lemmas shared by the claim theorems.
   ======================================================================== -/

/-- Well-nestedness of the raw brace sequence of a candidate block, exactly
as the extractor counts it (string context ignored): walking from depth `d`,
the depth first returns to zero on the final character.  This is the
"balanced-looking" side condition under which the depth-tracked scan finds
the whole block. -/
def nestScan : List Char → Int → Bool
  | [], _ => false
  | c :: rest, d =>
    let d1 : Int := if c = '{' then d + 1 else if c = '}' then d - 1 else d
    if c = '}' ∧ d1 = 0 then rest.isEmpty else nestScan rest d1

theorem data_mk (l : List Char) : (String.mk l).data = l := rfl

theorem fsLookup_fsWrite (fs : List (String × String)) (n c m : String) :
    fsLookup (fsWrite fs n c) m =
      if n = m then some c else fsLookup fs m := by
  induction fs with
  | nil => simp [fsWrite, fsLookup]
  | cons p rest ih =>
    obtain ⟨pn, pc⟩ := p
    by_cases h1 : pn = n
    · subst h1
      by_cases h2 : pn = m <;> simp [fsWrite, fsLookup, h2]
    · by_cases h2 : pn = m
      · subst h2
        have : ¬ n = pn := fun h => h1 h.symm
        simp [fsWrite, fsLookup, h1, this]
      · simp [fsWrite, fsLookup, h1, h2, ih]

theorem fsLookup_writeFiles (g : List GenFile) :
    ∀ (fs out : List (String × String)) (nm : String),
      writeFiles g fs = .ok out →
      (∀ fi ∈ g, fi.name ≠ some nm) →
      fsLookup out nm = fsLookup fs nm := by
  induction g with
  | nil =>
    intro fs out nm h _
    simp [writeFiles] at h
    rw [← h]
  | cons fi rest ih =>
    intro fs out nm h hnm
    match hfi : fi.name with
    | none => rw [writeFiles, hfi] at h; exact absurd h (by simp)
    | some n =>
      rw [writeFiles, hfi] at h
      have hne : n ≠ nm := by
        intro he
        exact hnm fi (by simp) (by rw [hfi, he])
      rw [ih _ _ _ h (fun x hx => hnm x (by simp [hx]))]
      rw [fsLookup_fsWrite]
      simp [hne]

theorem fsLookup_ensureLicense (fs : List (String × String)) (year : Nat)
    (user : String) (nm : String) (h : nm ≠ "LICENSE") :
    fsLookup (ensureLicense fs year user) nm = fsLookup fs nm := by
  unfold ensureLicense
  cases hl : fsLookup fs "LICENSE" with
  | some c => rfl
  | none =>
    rw [fsLookup_fsWrite, if_neg (fun he => h he.symm)]

/- ========================================================================
   Claim C9: fixed hosted-repository identity.
   ======================================================================== -/

/-- Claim C9 (confirmed): the hosted-repository identity is a constant
independent of the task id.  Any two requests yield the same local working
path, remote URL, repo URL and pages URL, and every successful
`process_task` run reports exactly those constants. -/
theorem task_addressing_constant :
    (∀ (user token : String) (d1 d2 : BuildData),
      taskAddressing user token d1.task = taskAddressing user token d2.task)
    ∧ (∀ (cfg : PTConfig) (ora : PTOracles)
        (ex : List (String × String)) (data : BuildData) (res : PTResult),
        process_task cfg ora ex data = .ok res →
        res.localPath = repo_path ∧
        res.remote = remoteUrl cfg.user cfg.token ∧
        res.repoUrl = repoUrlOf cfg.user ∧
        res.pagesUrl = pagesUrlOf cfg.user) := by
  constructor
  · intro user token d1 d2
    rfl
  · intro cfg ora ex data res h
    unfold process_task at h
    split at h <;> try (cases h)
    split at h <;> try (cases h)
    split at h <;> try (cases h)
    split at h <;> try (cases h)
    exact ⟨rfl, rfl, rfl, rfl⟩

/-- Sample configuration, oracles and request used to instantiate the
hypothesis-bearing theorems on concrete runs. -/
def sampleCfg : PTConfig := ⟨ "u", "t", 2025⟩

def sampleOra : PTOracles :=
  ⟨fun _ => none, fun _ => none, false, none, false, fun _ => some 200⟩

def sampleData : BuildData := ⟨ "e", "t1", 1, "n", "b", "http://cb", []⟩

/-- Witness for the hypothesis-bearing part of C9: a concrete successful
run reports the constant addressing. -/
theorem task_addressing_constant_witness :
    (process_task sampleCfg sampleOra [] sampleData).map
      (fun r => (r.localPath, r.remote, r.repoUrl, r.pagesUrl)) =
    .ok (repo_path, remoteUrl "u" "t", repoUrlOf "u", pagesUrlOf "u") := by
  obtain ⟨r, hr⟩ : ∃ r, process_task sampleCfg sampleOra [] sampleData =
      .ok r := ⟨_, rfl⟩
  obtain ⟨h1, h2, h3, h4⟩ :=
    task_addressing_constant.2 sampleCfg sampleOra [] sampleData r hr
  rw [hr]
  simp [Except.map, h1, h2, h3, h4, sampleCfg]

/- ========================================================================
   Claim C10: the no-client fallback of the generator.
   ======================================================================== -/

/-- Claim C10 (confirmed): when no LLM client is configured,
`generate_code_with_llm` always returns the fixed three-file stub
(index.html, README.md, LICENSE), each with a non-empty name. -/
theorem generate_stub_when_no_client :
    ∀ (llmBranch : Option (List GenFile)) (brief : String),
      generate_code_with_llm false llmBranch brief =
        some (stubFiles brief) ∧
      (stubFiles brief).map GenFile.name =
        [some "index.html", some "README.md", some "LICENSE"] ∧
      (stubFiles brief).all
        (fun fi =>
          match fi.name with
          | some n => !(n = "")
          | none => false) = true := by
  intro llmBranch brief
  exact ⟨rfl, rfl, rfl⟩

/- ========================================================================
   Claim C3: the push is always forced.
   ======================================================================== -/

/-- Counterexample to claim C3: on round 2 the only command that mentions
`push` is `git push -u origin main --force` — the push is forced, contrary
to the claim that subsequent-round pushes avoid `--force`. -/
theorem push_force_round2_cex :
    (gitCommands 2 "u" "t" false).filter
      (fun c => decide ("push" ∈ c)) =
    [ [ "git", "push", "-u", "origin", "main", "--force" ] ] := by decide

/-- Claim C3 amended: for every round (not only round 1), the push command
issued by `process_task` carries `--force`. -/
theorem push_always_force :
    ∀ (r : Nat) (user token : String) (b : Bool),
      [ "git", "push", "-u", "origin", "main", "--force" ] ∈
        gitCommands r user token b := by
  intro r user token b
  cases b <;> simp [gitCommands]

/- ========================================================================
   Claim C4: notifier retry protocol.
   ======================================================================== -/

/-- Claim C4 (confirmed): for every response oracle the notifier makes at
most 5 POST attempts; it succeeds exactly when some attempt within the
budget returns HTTP 200, returning right at the first such attempt; after
5 failures it raises (`success = false`); and the sleeps separating
consecutive attempts are 1, 2, 4, 8 time units (doubling from 1). -/
theorem notify_evaluator_spec (f : Nat → Option Nat) :
    (notify_evaluator f).attempts ≤ 5 ∧
    ((notify_evaluator f).success = true ↔
      ∃ k, 1 ≤ k ∧ k ≤ 5 ∧ f k = some 200) ∧
    ((notify_evaluator f).success = true →
      f (notify_evaluator f).attempts = some 200 ∧
      ∀ j, 1 ≤ j → j < (notify_evaluator f).attempts → f j ≠ some 200) ∧
    ((notify_evaluator f).success = false →
      (notify_evaluator f).attempts = 5) ∧
    (notify_evaluator f).sleeps.take ((notify_evaluator f).attempts - 1) =
      (List.range ((notify_evaluator f).attempts - 1)).map
        (fun i => 2 ^ i) := by
  by_cases h1 : f 1 = some 200
  · have ht : notify_evaluator f = ⟨1, [], true⟩ := by
      simp [notify_evaluator, notifyLoop, h1]
    rw [ht]
    refine ⟨by norm_num, ⟨fun _ => ⟨1, by omega, by omega, h1⟩,
      fun _ => rfl⟩,
      fun _ => ⟨h1, fun j hj1 hj2 => absurd (show j < 1 from hj2) (by omega)⟩,
      fun hf => by simp at hf, by decide⟩
  by_cases h2 : f 2 = some 200
  · have ht : notify_evaluator f = ⟨2, [1], true⟩ := by
      simp [notify_evaluator, notifyLoop, h1, h2]
    rw [ht]
    refine ⟨by norm_num, ⟨fun _ => ⟨2, by omega, by omega, h2⟩,
      fun _ => rfl⟩, fun _ => ⟨h2, ?_⟩, fun hf => by simp at hf, by decide⟩
    intro j hj1 hj2
    have hj : j < 2 := hj2
    interval_cases j
    exact h1
  by_cases h3 : f 3 = some 200
  · have ht : notify_evaluator f = ⟨3, [1, 2], true⟩ := by
      simp [notify_evaluator, notifyLoop, h1, h2, h3]
    rw [ht]
    refine ⟨by norm_num, ⟨fun _ => ⟨3, by omega, by omega, h3⟩,
      fun _ => rfl⟩, fun _ => ⟨h3, ?_⟩, fun hf => by simp at hf, by decide⟩
    intro j hj1 hj2
    have hj : j < 3 := hj2
    interval_cases j
    · exact h1
    · exact h2
  by_cases h4 : f 4 = some 200
  · have ht : notify_evaluator f = ⟨4, [1, 2, 4], true⟩ := by
      simp [notify_evaluator, notifyLoop, h1, h2, h3, h4]
    rw [ht]
    refine ⟨by norm_num, ⟨fun _ => ⟨4, by omega, by omega, h4⟩,
      fun _ => rfl⟩, fun _ => ⟨h4, ?_⟩, fun hf => by simp at hf, by decide⟩
    intro j hj1 hj2
    have hj : j < 4 := hj2
    interval_cases j
    · exact h1
    · exact h2
    · exact h3
  by_cases h5 : f 5 = some 200
  · have ht : notify_evaluator f = ⟨5, [1, 2, 4, 8], true⟩ := by
      simp [notify_evaluator, notifyLoop, h1, h2, h3, h4, h5]
    rw [ht]
    refine ⟨by norm_num, ⟨fun _ => ⟨5, by omega, by omega, h5⟩,
      fun _ => rfl⟩, fun _ => ⟨h5, ?_⟩, fun hf => by simp at hf, by decide⟩
    intro j hj1 hj2
    have hj : j < 5 := hj2
    interval_cases j
    · exact h1
    · exact h2
    · exact h3
    · exact h4
  · have ht : notify_evaluator f = ⟨5, [1, 2, 4, 8, 16], false⟩ := by
      simp [notify_evaluator, notifyLoop, h1, h2, h3, h4, h5]
    rw [ht]
    refine ⟨by norm_num, ⟨fun hs => by simp at hs, ?_⟩,
      fun hs => by simp at hs, fun _ => rfl, by decide⟩
    rintro ⟨k, hk1, hk5, hk⟩
    interval_cases k <;> simp_all

/-- Witness for C4: the always-500 backend concretely instantiates the
notifier specification. -/
theorem notify_evaluator_spec_witness :
    (notify_evaluator (fun _ => some 500)).attempts ≤ 5 ∧
    ((notify_evaluator (fun _ => some 500)).success = true ↔
      ∃ k, 1 ≤ k ∧ k ≤ 5 ∧ (fun _ : Nat => some 500) k = some 200) ∧
    ((notify_evaluator (fun _ => some 500)).success = true →
      (fun _ : Nat => some 500)
          (notify_evaluator (fun _ => some 500)).attempts = some 200 ∧
      ∀ j, 1 ≤ j → j < (notify_evaluator (fun _ => some 500)).attempts →
        (fun _ : Nat => some 500) j ≠ some 200) ∧
    ((notify_evaluator (fun _ => some 500)).success = false →
      (notify_evaluator (fun _ => some 500)).attempts = 5) ∧
    (notify_evaluator (fun _ => some 500)).sleeps.take
        ((notify_evaluator (fun _ => some 500)).attempts - 1) =
      (List.range ((notify_evaluator (fun _ => some 500)).attempts - 1)).map
        (fun i => 2 ^ i) :=
  notify_evaluator_spec (fun _ => some 500)

/- ========================================================================
   Claim C5: acknowledgment versus pipeline ordering.
   ======================================================================== -/

/-- Counterexample to claim C5: on a fully valid request the handler's
event trace is pipeline-start, pipeline-end, then the 200 response — the
acknowledgment is NOT produced before the pipeline runs (the call to
`process_task` on line 52 precedes the `return` on line 57). -/
theorem ack_before_pipeline_cex :
    (handle_build_request "s"
        (some (.jObj
          [ ("secret", .jStr "s"), ("email", .jStr "e"),
            ("task", .jStr "t1"), ("round", .jNum 1),
            ("nonce", .jStr "n"), ("brief", .jStr "b"),
            ("evaluation_url", .jStr "u") ]))
        true).events =
      [ .pipelineStart, .pipelineEnd true, .respond 200 ] ∧
    ¬ (idxOfEvent (.respond 200)
          [ FrontEvent.pipelineStart, .pipelineEnd true, .respond 200 ] <
        idxOfEvent .pipelineStart
          [ FrontEvent.pipelineStart, .pipelineEnd true, .respond 200 ]) ∧
    idxOfEvent .pipelineStart
        [ FrontEvent.pipelineStart, .pipelineEnd true, .respond 200 ] <
      idxOfEvent (.respond 200)
        [ FrontEvent.pipelineStart, .pipelineEnd true, .respond 200 ] := by
  refine ⟨rfl, ?_, ?_⟩ <;> decide

/-- Claim C5 amended: for every well-formed request with the correct secret
and all required fields, the 200 acknowledgment is produced only after the
pipeline has run synchronously, and the response status is 200 regardless
of the pipeline's outcome (a pipeline exception is caught on lines 53-55). -/
theorem ack_after_pipeline (mySecret : String)
    (fields : List (String × JVal)) (ok : Bool)
    (hsecret : isStrVal (objGet fields "secret") mySecret = true)
    (hfields : REQUIRED_FIELDS.all
      (fun f => (objGet fields f).isSome) = true) :
    (handle_build_request mySecret (some (.jObj fields)) ok).events =
      [ .pipelineStart, .pipelineEnd ok, .respond 200 ] ∧
    (handle_build_request mySecret (some (.jObj fields)) ok).status = 200 ∧
    (handle_build_request mySecret (some (.jObj fields)) true).status =
      (handle_build_request mySecret (some (.jObj fields)) false).status := by
  have hne : fields ≠ [] := by
    intro he
    rw [he] at hsecret
    simp [objGet, isStrVal] at hsecret
  cases fields with
  | nil => exact absurd rfl hne
  | cons p rest =>
    refine ⟨?_, ?_, ?_⟩ <;>
      simp [handle_build_request, truthy, hsecret, hfields]

/-- Witness for the amended C5 on a concrete valid request. -/
theorem ack_after_pipeline_witness :
    (handle_build_request "s"
        (some (.jObj
          [ ("secret", .jStr "s"), ("email", .jStr "e"),
            ("task", .jStr "t2"), ("round", .jNum 2),
            ("nonce", .jStr "n"), ("brief", .jStr "b"),
            ("evaluation_url", .jStr "u") ]))
        false).events =
      [ .pipelineStart, .pipelineEnd false, .respond 200 ] :=
  (ack_after_pipeline "s"
    [ ("secret", .jStr "s"), ("email", .jStr "e"),
      ("task", .jStr "t2"), ("round", .jNum 2),
      ("nonce", .jStr "n"), ("brief", .jStr "b"),
      ("evaluation_url", .jStr "u") ]
    false (by rfl) (by rfl)).1

/- ========================================================================
   Claim C8: front-door validation.
   ======================================================================== -/

/-- Counterexample to claim C8: the request body is a truthy JSON object
that is missing the required field `email`, yet the handler answers 401,
not 400 — the secret check on line 42 precedes the required-field loop on
lines 46-48, so a request that is both unauthorized and incomplete gets
401, contradicting the claim that every missing-field request gets 400. -/
theorem missing_field_wrong_secret_cex :
    "email" ∈ REQUIRED_FIELDS ∧
    objGet [ ("secret", JVal.jStr "wrong") ] "email" = none ∧
    (handle_build_request "right"
        (some (.jObj [ ("secret", JVal.jStr "wrong") ])) true).status =
      401 ∧
    ¬ (handle_build_request "right"
        (some (.jObj [ ("secret", JVal.jStr "wrong") ])) true).status =
      400 := by
  refine ⟨by decide, rfl, rfl, by decide⟩

/-- Claim C8 amended: an unparsable body gets 400; a truthy JSON-object
body is checked for the secret first, so any such request with a wrong or
missing secret gets 401 (even when required fields are missing); with a
correct secret, a missing required field gets 400; and in all these cases
no pipeline work is triggered. -/
theorem front_door_validation (mySecret : String) (body : Option JVal)
    (ok : Bool) :
    (body = none →
      (handle_build_request mySecret body ok).status = 400 ∧
      FrontEvent.pipelineStart ∉
        (handle_build_request mySecret body ok).events) ∧
    (∀ fields, body = some (.jObj fields) →
      truthy (.jObj fields) = true →
      isStrVal (objGet fields "secret") mySecret = false →
      (handle_build_request mySecret body ok).status = 401 ∧
      FrontEvent.pipelineStart ∉
        (handle_build_request mySecret body ok).events) ∧
    (∀ fields, body = some (.jObj fields) →
      isStrVal (objGet fields "secret") mySecret = true →
      (∃ fl ∈ REQUIRED_FIELDS, objGet fields fl = none) →
      (handle_build_request mySecret body ok).status = 400 ∧
      FrontEvent.pipelineStart ∉
        (handle_build_request mySecret body ok).events) := by
  refine ⟨?_, ?_, ?_⟩
  · rintro rfl
    exact ⟨rfl, by simp [handle_build_request]⟩
  · rintro fields rfl htruthy hsecret
    simp [handle_build_request, htruthy, hsecret]
  · rintro fields rfl hsecret ⟨fl, hmem, hnone⟩
    have hne : fields ≠ [] := by
      intro he
      rw [he] at hsecret
      simp [objGet, isStrVal] at hsecret
    have htruthy : truthy (.jObj fields) = true := by
      cases fields with
      | nil => exact absurd rfl hne
      | cons p rest => simp [truthy]
    have hall : REQUIRED_FIELDS.all
        (fun f => (objGet fields f).isSome) = false := by
      rw [← Bool.not_eq_true, List.all_eq_true]
      intro hforall
      have := hforall fl hmem
      rw [hnone] at this
      simp at this
    simp [handle_build_request, htruthy, hsecret, hall]

/-- Witness for the amended C8 at concrete requests for each branch. -/
theorem front_door_validation_witness :
    (handle_build_request "s" none true).status = 400 ∧
    (handle_build_request "s"
        (some (.jObj [ ("secret", JVal.jStr "x") ])) true).status = 401 ∧
    (handle_build_request "s"
        (some (.jObj [ ("secret", JVal.jStr "s") ])) true).status = 400 := by
  refine ⟨((front_door_validation "s" none true).1 rfl).1, ?_, ?_⟩
  · exact ((front_door_validation "s"
      (some (.jObj [ ("secret", JVal.jStr "x") ])) true).2.1
      [ ("secret", JVal.jStr "x") ] rfl (by decide) (by rfl)).1
  · exact ((front_door_validation "s"
      (some (.jObj [ ("secret", JVal.jStr "s") ])) true).2.2
      [ ("secret", JVal.jStr "s") ] rfl (by rfl)
      ⟨ "email", by decide, by rfl⟩).1

/- ========================================================================
   Claim C2: what persists across rounds.
   ======================================================================== -/

/-- A round-2 request. -/
def sampleData2 : BuildData := ⟨ "e", "t1", 2, "n", "b", "http://cb", []⟩

/-- Counterexample to claim C2: a file `old.txt` left by an earlier round
and absent from the new GeneratedFileSet does NOT persist — lines 102-103
(`shutil.rmtree`) delete the whole tree before the new files are written,
so the published round-2 repository no longer contains it. -/
theorem process_task_stale_file_cex :
    (process_task sampleCfg sampleOra [ ("old.txt", "x") ] sampleData2).map
      (fun r => fsLookup r.repoFiles "old.txt") = .ok none ∧
    sampleData2.round = 2 ∧
    fsLookup [ ("old.txt", "x") ] "old.txt" = some "x" :=
  ⟨rfl, rfl, rfl⟩

/-- Claim C2 amended: on every round (in particular round ≥ 2) the prior
working tree is discarded wholesale: the pipeline result is independent of
the pre-existing tree, and the written repository contains only the files
of the new GeneratedFileSet plus (possibly) the synthesized LICENSE —
a name not generated and different from LICENSE is absent. -/
theorem process_task_fresh_tree (cfg : PTConfig) (ora : PTOracles)
    (ex1 ex2 : List (String × String)) (data : BuildData)
    (g : List GenFile) (out : List (String × String))
    (_hr : 2 ≤ data.round)
    (hbuild : buildWorkingTree ex1 g cfg.year cfg.user = .ok out) :
    process_task cfg ora ex1 data = process_task cfg ora ex2 data ∧
    buildWorkingTree ex2 g cfg.year cfg.user = .ok out ∧
    ∀ nm, nm ≠ "LICENSE" → (∀ fi ∈ g, fi.name ≠ some nm) →
      fsLookup out nm = none := by
  refine ⟨rfl, hbuild, ?_⟩
  intro nm hnm hg
  unfold buildWorkingTree at hbuild
  cases hw : writeFiles g [] with
  | error e => rw [hw] at hbuild; cases hbuild
  | ok fs0 =>
    rw [hw] at hbuild
    cases hbuild
    rw [fsLookup_ensureLicense _ _ _ _ hnm,
      fsLookup_writeFiles g [] fs0 nm hw hg]
    rfl

/-- Witness for the amended C2: a concrete round-2 run where the old tree
held `old.txt`, which is gone from the freshly built tree. -/
theorem process_task_fresh_tree_witness :
    fsLookup [ ("a.txt", "1"), ("LICENSE", mitLicense 2025 "u") ]
      "old.txt" = none := by
  have h := process_task_fresh_tree sampleCfg sampleOra
    [ ("old.txt", "x") ] [] sampleData2 [ ⟨some "a.txt", some "1"⟩ ] _
    (by decide) rfl
  exact h.2.2 "old.txt" (by decide) (by decide)

/- ========================================================================
   Claim C6: which mandatory files are synthesized.
   ======================================================================== -/

/-- Counterexample to claim C6: when the generator's file set consists of
`index.html` alone, the written repository has a synthesized LICENSE but NO
`README.md` — the pipeline synthesizes only the LICENSE (lines 115-126);
nothing synthesizes a missing README or entry point. -/
theorem readme_not_synthesized_cex :
    (buildWorkingTree [] [ ⟨some "index.html", some "hi"⟩ ] 2025 "u").map
      (fun fs => (fsLookup fs "README.md", fsLookup fs "LICENSE")) =
    .ok (none, some (mitLicense 2025 "u")) := rfl

/-- Claim C6 amended: every successfully written tree contains a LICENSE:
kept verbatim when the generator produced one, otherwise synthesized as
the MIT text with the current year and the operator's identity.  README.md
and the entry point are NOT synthesized; they are present only when the
generator emits them. -/
theorem license_always_synthesized (ex : List (String × String))
    (g : List GenFile) (year : Nat) (user : String)
    (out : List (String × String))
    (hbuild : buildWorkingTree ex g year user = .ok out) :
    (∃ c, fsLookup out "LICENSE" = some c) ∧
    (∀ fs0, writeFiles g [] = .ok fs0 →
      fsLookup fs0 "LICENSE" = none →
      fsLookup out "LICENSE" = some (mitLicense year user)) ∧
    (∀ fs0 c, writeFiles g [] = .ok fs0 →
      fsLookup fs0 "LICENSE" = some c →
      fsLookup out "LICENSE" = some c) := by
  unfold buildWorkingTree at hbuild
  cases hw : writeFiles g [] with
  | error e => rw [hw] at hbuild; cases hbuild
  | ok fs0 =>
    rw [hw] at hbuild
    cases hbuild
    refine ⟨?_, ?_, ?_⟩
    · cases hl : fsLookup fs0 "LICENSE" with
      | some c =>
        refine ⟨c, ?_⟩
        unfold ensureLicense
        rw [hl]
        exact hl
      | none =>
        refine ⟨mitLicense year user, ?_⟩
        unfold ensureLicense
        rw [hl, fsLookup_fsWrite, if_pos rfl]
    · intro fs1 hw1 hl1
      injection hw1 with hfs
      subst hfs
      unfold ensureLicense
      rw [hl1, fsLookup_fsWrite, if_pos rfl]
    · intro fs1 c hw1 hl1
      injection hw1 with hfs
      subst hfs
      unfold ensureLicense
      rw [hl1]
      exact hl1

/-- Witness for the amended C6: a generator output without a LICENSE gets
one synthesized. -/
theorem license_always_synthesized_witness :
    ∃ c, fsLookup [ ("index.html", "hi"), ("LICENSE", mitLicense 2024 "op") ]
      "LICENSE" = some c := by
  have h := license_always_synthesized []
    [ ⟨some "index.html", some "hi"⟩ ] 2024 "op" _ rfl
  exact h.1

/- ========================================================================
   Claim C7: attachment failures and round survival.
   ======================================================================== -/

/-- Counterexample to claim C7: an inline-data attachment whose URL has no
comma makes the tuple unpacking `_, b64 = url.split(",", 1)` on line 82
raise ValueError, which nothing catches — the round aborts before the
generation step, contradicting the claim that no materialization failure
aborts the round. -/
theorem data_url_abort_cex :
    materializeAll (fun _ => none) (fun _ => none)
      [ ⟨some "a", some "data:text/plain"⟩ ] =
      .error "ValueError: not enough values to unpack" ∧
    process_task sampleCfg sampleOra []
      ⟨ "e", "t1", 1, "n", "b", "http://cb",
        [ ⟨some "a", some "data:text/plain"⟩ ]⟩ =
      .error "ValueError: not enough values to unpack" :=
  ⟨rfl, rfl⟩

theorem materializeAtt_safe (b64dec fetch : String → Option (List Nat))
    (att : Attachment) (h : attSafe att = true) :
    ∃ r, materializeAtt b64dec fetch att = .ok r := by
  rcases att with ⟨name, url⟩
  cases name with
  | none => exact ⟨none, rfl⟩
  | some n =>
    cases url with
    | none => exact ⟨none, rfl⟩
    | some u =>
      by_cases he : n = "" || u = ""
      · exact ⟨none, by simp only [materializeAtt, he, if_true]⟩
      · have hdata : "data:".data.isPrefixOf u.data = false := by
          simp only [attSafe, he, if_false] at h
          simpa using h
        cases hf : fetch u with
        | some content =>
          exact ⟨some (.wrote n), by simp [materializeAtt, he, hdata, hf]⟩
        | none =>
          exact ⟨some (.warnedFetch n),
            by simp [materializeAtt, he, hdata, hf]⟩

/-- Claim C7 amended: attachments that avoid the inline-data branch can
never abort the round — in particular a failing remote fetch is logged and
skipped — whereas inline-data attachments can abort it (see the
counterexample). -/
theorem fetch_failures_never_abort
    (b64dec fetch : String → Option (List Nat))
    (atts : List Attachment) (h : atts.all attSafe = true) :
    ∃ evs, materializeAll b64dec fetch atts = .ok evs := by
  induction atts with
  | nil => exact ⟨[], rfl⟩
  | cons att rest ih =>
    rw [List.all_cons, Bool.and_eq_true] at h
    obtain ⟨evs, hevs⟩ := ih h.2
    obtain ⟨r, hr⟩ := materializeAtt_safe b64dec fetch att h.1
    cases r with
    | none => exact ⟨evs, by simp only [materializeAll, hr, hevs]⟩
    | some ev => exact ⟨ev :: evs, by simp only [materializeAll, hr, hevs]⟩

/-- Witness for the amended C7: one remote attachment whose fetch raises is
skipped and the materialization phase still succeeds. -/
theorem fetch_failures_never_abort_witness :
    ∃ evs, materializeAll (fun _ => none) (fun _ => none)
      [ ⟨some "a", some "http://example.com/a"⟩ ] = .ok evs :=
  fetch_failures_never_abort (fun _ => none) (fun _ => none)
    [ ⟨some "a", some "http://example.com/a"⟩ ] (by decide)

/- ========================================================================
   Claim C1: the depth-tracked JSON extraction.
   ======================================================================== -/

theorem stripFence1_fence (fuel : Nat) (rest : List Char) :
    stripFence1 (fuel + 1) ('`' :: '`' :: '`' :: rest) =
      stripFence1 fuel (dropNl (dropAlt rest)) := rfl

theorem stripFence1_cons (fuel : Nat) (c : Char) (rest : List Char)
    (h : ¬ c = '`') :
    stripFence1 (fuel + 1) (c :: rest) = c :: stripFence1 fuel rest := by
  simp [stripFence1, h]

theorem stripFence1_append (cs : List Char) (h : ∀ c ∈ cs, ¬ c = '`') :
    ∀ (tail : List Char) (fuel : Nat),
      stripFence1 (cs.length + fuel) (cs ++ tail) =
        cs ++ stripFence1 fuel tail := by
  induction cs with
  | nil => intro tail fuel; simp
  | cons c cs ih =>
    intro tail fuel
    have hc : ¬ c = '`' := h c (List.mem_cons_self c cs)
    have hlen : (c :: cs).length + fuel = (cs.length + fuel) + 1 := by
      simp [List.length_cons]
      omega
    rw [List.cons_append, hlen, stripFence1_cons _ _ _ hc,
      ih (fun x hx => h x (List.mem_cons_of_mem c hx)) tail fuel]
    rfl

theorem stripFence2_cons (fuel : Nat) (c : Char) (rest : List Char)
    (h : ¬ c = '`') :
    stripFence2 (fuel + 1) (c :: rest) = c :: stripFence2 fuel rest := by
  simp [stripFence2, h]

theorem stripFence2_append (cs : List Char) (h : ∀ c ∈ cs, ¬ c = '`') :
    ∀ (tail : List Char) (fuel : Nat),
      stripFence2 (cs.length + fuel) (cs ++ tail) =
        cs ++ stripFence2 fuel tail := by
  induction cs with
  | nil => intro tail fuel; simp
  | cons c cs ih =>
    intro tail fuel
    have hc : ¬ c = '`' := h c (List.mem_cons_self c cs)
    have hlen : (c :: cs).length + fuel = (cs.length + fuel) + 1 := by
      simp [List.length_cons]
      omega
    rw [List.cons_append, hlen, stripFence2_cons _ _ _ hc,
      ih (fun x hx => h x (List.mem_cons_of_mem c hx)) tail fuel]
    rfl

/-- When the raw brace sequence of `cs` is well nested (depth first returns
to zero exactly on the final character), the extractor's inner walk started
anywhere inside a longer text returns precisely `cs`. -/
theorem candWalk_nest (cs : List Char) :
    ∀ (suffix acc : List Char) (d : Int), nestScan cs d = true →
      candWalk (cs ++ suffix) d acc = some (acc ++ cs) := by
  induction cs with
  | nil =>
    intro suffix acc d h
    simp [nestScan] at h
  | cons c rest ih =>
    intro suffix acc d h
    simp only [nestScan] at h
    rw [List.cons_append]
    simp only [candWalk]
    by_cases hstop : c = '}' ∧
        (if c = '{' then d + 1 else if c = '}' then d - 1 else d) = 0
    · rw [if_pos hstop] at h ⊢
      have hr : rest = [] := by simpa using h
      subst hr
      rfl
    · rw [if_neg hstop] at h ⊢
      rw [ih suffix (acc ++ [c]) _ h]
      simp

/-- Counterexample to claim C1: the fenced block embeds the valid JSON
object whose string value is the single character closing brace.  The
depth counter (which ignores string context, lines 234-239) reaches zero
at that in-string brace, the truncated candidate fails to parse, the scan
breaks to the next opening brace and also fails, and extraction returns
None instead of the embedded object. -/
theorem extract_json_unbalanced_brace_cex :
    jsonValid
      ("\x7b\"files\": [\x7b\"name\": \"a\", \"content\": \"\x7d\"\x7d]\x7d".data) =
      true ∧
    extract_json_from_text
      ("```json\n\x7b\"files\": [\x7b\"name\": \"a\", \"content\": \"\x7d\"\x7d]\x7d\n```")
      false = none := by
  exact ⟨by decide, by decide⟩

/-- Claim C1 amended: for a single fenced JSON block whose raw brace
sequence is well nested — in particular, braces inside string values are
allowed as long as they balance within the block — extraction returns
exactly the embedded object.  (When a string value makes the raw brace
sequence unbalanced, extraction fails; see the counterexample.) -/
theorem extract_json_fenced_balanced (obj : List Char)
    (hnb : ∀ c ∈ obj, ¬ c = '`')
    (hhead : obj.head? = some '{')
    (hnest : nestScan obj 0 = true)
    (hjson : jsonValid obj = true) :
    extract_json_from_text
      (String.mk ("```json\n".data ++ (obj ++ "\n```".data))) false =
      some (String.mk obj) := by
  obtain ⟨tl, rfl⟩ : ∃ tl, obj = '{' :: tl := by
    cases obj with
    | nil => simp at hhead
    | cons c tl =>
      simp at hhead
      exact ⟨tl, by rw [hhead]⟩
  have h8 : ("```json\n".data).length = 8 := rfl
  have h4 : ("\n```".data).length = 4 := rfl
  have hlen : ("```json\n".data ++ (('{' :: tl) ++ "\n```".data)).length =
      (('{' :: tl).length + 11) + 1 := by
    rw [List.length_append, List.length_append, h8, h4]
    omega
  have hshape : "```json\n".data ++ (('{' :: tl) ++ "\n```".data) =
      '`' :: '`' :: '`' ::
        ('j' :: 's' :: 'o' :: 'n' :: '\n' ::
          (('{' :: tl) ++ "\n```".data)) := rfl
  have hs1 : stripFence1
      ("```json\n".data ++ (('{' :: tl) ++ "\n```".data)).length
      ("```json\n".data ++ (('{' :: tl) ++ "\n```".data)) =
      ('{' :: tl) ++ ['\n'] := by
    rw [hlen, hshape, stripFence1_fence]
    have hdrop : dropNl (dropAlt
        ('j' :: 's' :: 'o' :: 'n' :: '\n' :: (('{' :: tl) ++ "\n```".data)))
        = ('{' :: tl) ++ "\n```".data := rfl
    rw [hdrop, stripFence1_append ('{' :: tl) hnb "\n```".data 11]
    rfl
  have hs2 : stripFence2 ((('{' :: tl) ++ ['\n']).length)
      (('{' :: tl) ++ ['\n']) = ('{' :: tl) ++ ['\n'] := by
    have hlen2 : (('{' :: tl) ++ ['\n']).length = ('{' :: tl).length + 1 :=
      by simp
    rw [hlen2, stripFence2_append ('{' :: tl) hnb ['\n'] 1]
    rfl
  have hcw : candWalk ('{' :: (tl ++ ['\n'])) 0 [] = some ('{' :: tl) := by
    have h0 := candWalk_nest ('{' :: tl) ['\n'] [] 0 hnest
    simpa using h0
  have hscan : scanStarts (('{' :: tl) ++ ['\n']) = some ('{' :: tl) := by
    rw [show ('{' :: tl) ++ ['\n'] = '{' :: (tl ++ ['\n']) from rfl]
    simp only [scanStarts]
    rw [if_pos trivial, hcw]
    simp [hjson]
  simp only [extract_json_from_text, data_mk]
  have hemp : ("```json\n".data ++ (('{' :: tl) ++ "\n```".data)).isEmpty =
      false := rfl
  rw [hemp]
  simp only [Bool.false_eq_true, if_false]
  rw [hs1, hs2, hscan]

/-- Witness for the amended C1: a fenced object whose string value contains
balanced nested braces is extracted exactly. -/
theorem extract_json_fenced_balanced_witness :
    extract_json_from_text
      (String.mk ("```json\n".data ++
        ("\x7b\"a\": \"b\x7bc\x7dd\"\x7d".data ++ "\n```".data))) false =
      some (String.mk "\x7b\"a\": \"b\x7bc\x7dd\"\x7d".data) :=
  extract_json_fenced_balanced "\x7b\"a\": \"b\x7bc\x7dd\"\x7d".data
    (by decide) (by decide) (by decide) (by decide)
